import Mathlib

/-!
Verification of the Nokia Snake game logic (`game.js`, class `SnakeGame`,
plus the earlier function-based variant).

The JavaScript game logic is shallowly embedded: grid cells are pairs of
integers, the snake is a list of cells (head first), the game state is a
record holding every mutable field of the `SnakeGame` class, and each
method becomes a pure function on that record.  `Math.random()`-driven
choices are passed in as an explicit `Nat` parameter, and the
`setInterval` scheduler is modelled by an `Option Nat` holding the
interval it is currently armed with (`none` = disarmed).  The
`localStorage` store is modelled by an `Option String`.
-/

set_option maxRecDepth 8000

namespace Snake

/-- A grid cell, the JS object `{x, y}`.  Coordinates are integers: the
candidate head computed in `update` may leave `[0, GRID_SIZE)`. -/
structure Cell where
  x : Int
  y : Int
deriving DecidableEq, Repr

instance : Inhabited Cell := ⟨⟨0, 0⟩⟩

/-- The four direction strings of the JS code. -/
inductive Dir
  | UP
  | DOWN
  | LEFT
  | RIGHT
deriving DecidableEq, Repr

/-- The `opposites` table of `queueDirection` (src/game.js 254-259). -/
def Dir.opposite : Dir → Dir
  | .UP => .DOWN
  | .DOWN => .UP
  | .LEFT => .RIGHT
  | .RIGHT => .LEFT

/-- Constant `CONFIG.GRID_SIZE` (src/game.js 19). -/
def GRID_SIZE : Nat := 20

/-- Constant `CONFIG.INITIAL_SNAKE_LENGTH` (src/game.js 33). -/
def INITIAL_SNAKE_LENGTH : Nat := 4

/-- Constant `CONFIG.POINTS_PER_FOOD` (src/game.js 47). -/
def POINTS_PER_FOOD : Nat := 10

/-- One entry of `CONFIG.SPEED_LEVELS`. -/
structure SpeedLevel where
  threshold : Nat
  speed : Nat
deriving DecidableEq, Repr

/-- Table `CONFIG.SPEED_LEVELS` (src/game.js 37-44). -/
def SPEED_LEVELS : List SpeedLevel :=
  [⟨0, 150⟩, ⟨50, 130⟩, ⟨100, 110⟩, ⟨200, 90⟩, ⟨300, 75⟩, ⟨500, 60⟩]

/-- The `GameState` string enum (src/game.js 54-59). -/
inductive GameState
  | START
  | PLAYING
  | PAUSED
  | GAME_OVER
deriving DecidableEq, Repr

/-- The switch on `this.direction` in `update` (src/game.js 405-410):
one step of the head in a direction. -/
def moveCell (c : Cell) : Dir → Cell
  | .UP => { c with y := c.y - 1 }
  | .DOWN => { c with y := c.y + 1 }
  | .LEFT => { c with x := c.x - 1 }
  | .RIGHT => { c with x := c.x + 1 }

/-- The body membership test `this.snake[i].x === head.x && this.snake[i].y === head.y`
looped over all segments (src/game.js 441-445), and likewise the
`segment.x === x && segment.y === y` test of `spawnFood`. -/
def onSnake (snake : List Cell) (c : Cell) : Bool :=
  snake.any (fun seg => seg.x == c.x && seg.y == c.y)

/-- Embeds `SnakeGame.checkCollision` (src/game.js 433-448): wall test first,
then self test against every segment of the pre-move body. -/
def checkCollision (head : Cell) (snake : List Cell) : Bool :=
  if head.x < 0 || (GRID_SIZE : Int) ≤ head.x || head.y < 0 || (GRID_SIZE : Int) ≤ head.y then
    true
  else if onSnake snake head then
    true
  else
    false

/-- The collision classification of the specification. -/
inductive CollisionKind
  | NONE
  | WALL
  | SELF
deriving DecidableEq, Repr

/-- Modelled from the spec: `check(head_cell, snake_body) -> CollisionKind`.
It performs the same two tests as `checkCollision`, in the same order,
recording which one fired. -/
def checkKind (head : Cell) (snake : List Cell) : CollisionKind :=
  if head.x < 0 || (GRID_SIZE : Int) ≤ head.x || head.y < 0 || (GRID_SIZE : Int) ≤ head.y then
    .WALL
  else if onSnake snake head then
    .SELF
  else
    .NONE

/-- The candidate head is inside the board. -/
def inBounds (c : Cell) : Prop :=
  0 ≤ c.x ∧ c.x < (GRID_SIZE : Int) ∧ 0 ≤ c.y ∧ c.y < (GRID_SIZE : Int)

instance (c : Cell) : Decidable (inBounds c) := by
  unfold inBounds; infer_instance

instance : Inhabited SpeedLevel := ⟨⟨0, 150⟩⟩

/-- Constant `CONFIG.INITIAL_DIRECTION` (src/game.js 34). -/
def INITIAL_DIRECTION : Dir := .RIGHT

/-- The whole mutable state of the `SnakeGame` class (src/game.js 78-96),
restricted to the game-logic fields.  The `setInterval` handle
`this.gameLoop` is modelled by `loopInterval`: `some i` means the tick
scheduler is armed with interval `i`, `none` means it is disarmed.  The
`localStorage` contents under the key `snakeHighScore` are modelled by
`store`. -/
structure SnakeGame where
  state : GameState
  score : Nat
  highScore : Nat
  snake : List Cell
  direction : Dir
  nextDirection : Dir
  food : Option Cell
  loopInterval : Option Nat
  currentSpeed : Nat
  directionQueue : List Dir
  store : Option String
deriving DecidableEq, Repr

/-- Embeds `SnakeGame.initSnake` (src/game.js 298-310): segments from head to
tail, starting at the grid centre and extending leftwards. -/
def initSnake : List Cell :=
  (List.range INITIAL_SNAKE_LENGTH).map
    (fun i => ⟨((GRID_SIZE / 2 : Nat) : Int) - (i : Int), ((GRID_SIZE / 2 : Nat) : Int)⟩)

/-- The nested `for x / for y` enumeration of all grid cells used by
`spawnFood` (src/game.js 319-328), in the order the JS loops visit them. -/
def gridCells : List Cell :=
  (List.range GRID_SIZE).flatMap (fun (x : Nat) =>
    (List.range GRID_SIZE).map (fun (y : Nat) => ⟨(x : Int), (y : Int)⟩))

/-- The `validPositions` array built by `spawnFood` (src/game.js 316-328):
all grid cells not occupied by the snake. -/
def validPositions (snake : List Cell) : List Cell :=
  gridCells.filter (fun c => ! onSnake snake c)

/-- The number of grid cells occupied by the snake. -/
def occupiedCount (snake : List Cell) : Nat :=
  (gridCells.filter (fun c => onSnake snake c)).length

/-- The random choice core of `SnakeGame.spawnFood` (src/game.js 315-339):
`none` models the BoardFull signal (`validPositions.length === 0`,
which triggers `handleWin`); otherwise the cell at the random index is
returned.  The `Math.random()` draw is modelled by the parameter `r`;
`Math.floor(Math.random() * len)` is an arbitrary index below `len`,
here `r % len`. -/
def spawnFood (snake : List Cell) (r : Nat) : Option Cell :=
  let valid := validPositions snake
  if h : valid.length = 0 then none
  else some (valid.get ⟨r % valid.length, Nat.mod_lt r (Nat.pos_of_ne_zero h)⟩)

/-- Embeds `SnakeGame.startGameLoop` (src/game.js 344-353): (re)arms the
`setInterval` scheduler at `this.currentSpeed`. -/
def startGameLoop (g : SnakeGame) : SnakeGame :=
  { g with loopInterval := some g.currentSpeed }

/-- The speed lookup of `SnakeGame.updateSpeed` (src/game.js 359-361):
`CONFIG.SPEED_LEVELS.filter(level => score >= level.threshold).pop().speed`.
`Array.pop()` on an empty array would make the JS throw; that case is
`none`. -/
def speedFor (levels : List SpeedLevel) (score : Nat) : Option Nat :=
  ((levels.filter (fun level => decide (level.threshold ≤ score))).getLast?).map
    SpeedLevel.speed

/-- Modelled from the spec: `speed_for(score, levels)` returns the
interval of the last entry in `levels` whose threshold ≤ score. -/
def lastEntrySpec (levels : List SpeedLevel) (score : Nat) : Option SpeedLevel :=
  levels.foldl (fun acc level => if level.threshold ≤ score then some level else acc) none

/-- Embeds `SnakeGame.updateSpeed` (src/game.js 358-367). -/
def updateSpeed (g : SnakeGame) : SnakeGame :=
  match speedFor SPEED_LEVELS g.score with
  | none => g
  | some ns => if ns ≠ g.currentSpeed then startGameLoop { g with currentSpeed := ns } else g

/-- Embeds `SnakeGame.pauseGame` (src/game.js 372-379). -/
def pauseGame (g : SnakeGame) : SnakeGame :=
  if g.state ≠ GameState.PLAYING then g
  else { g with state := GameState.PAUSED, loopInterval := none }

/-- Embeds `SnakeGame.resumeGame` (src/game.js 384-389). -/
def resumeGame (g : SnakeGame) : SnakeGame :=
  if g.state ≠ GameState.PAUSED then g
  else startGameLoop { g with state := GameState.PLAYING }

/-- Embeds `SnakeGame.saveHighScore` (src/game.js 698-700): writes
`this.highScore.toString()` to the store. -/
def saveHighScore (g : SnakeGame) : SnakeGame :=
  { g with store := some (Nat.repr g.highScore) }

/-- Embeds `SnakeGame.gameOver` (src/game.js 468-488), game-logic part: enter
GAME_OVER, disarm the scheduler, and persist the high score only when
beaten. -/
def gameOver (g : SnakeGame) : SnakeGame :=
  let g1 := { g with state := GameState.GAME_OVER, loopInterval := none }
  if g1.highScore < g1.score then saveHighScore { g1 with highScore := g1.score } else g1

/-- Embeds `SnakeGame.handleWin` (src/game.js 493-506): identical game-logic
effect to `gameOver`. -/
def handleWin (g : SnakeGame) : SnakeGame :=
  let g1 := { g with state := GameState.GAME_OVER, loopInterval := none }
  if g1.highScore < g1.score then saveHighScore { g1 with highScore := g1.score } else g1

/-- Embeds `SnakeGame.spawnFood` as a state transformer: on BoardFull it calls
`handleWin` (leaving `this.food` untouched), otherwise it stores the
chosen cell in `this.food`. -/
def spawnFoodState (r : Nat) (g : SnakeGame) : SnakeGame :=
  match spawnFood g.snake r with
  | none => handleWin g
  | some c => { g with food := some c }

/-- Embeds `SnakeGame.eatFood` (src/game.js 453-463): add `POINTS_PER_FOOD` to
the score, recompute the speed, spawn new food. -/
def eatFood (r : Nat) (g : SnakeGame) : SnakeGame :=
  spawnFoodState r (updateSpeed { g with score := g.score + POINTS_PER_FOOD })

/-- Embeds `SnakeGame.queueDirection` (src/game.js 245-268). -/
def queueDirection (newDirection : Dir) (g : SnakeGame) : SnakeGame :=
  if g.state ≠ GameState.PLAYING then g
  else
    let lastDirection := (g.directionQueue.getLast?).getD g.direction
    if Dir.opposite newDirection = lastDirection then g
    else if newDirection = lastDirection then g
    else if g.directionQueue.length < 2 then
      { g with directionQueue := g.directionQueue ++ [newDirection] }
    else g

/-- The direction `update` will consume at the next tick: the front of
the queue if any, else the current direction (src/game.js 398-400). -/
def effectiveDirection (g : SnakeGame) : Dir :=
  match g.directionQueue with
  | [] => g.direction
  | d :: _ => d

/-- The `lastDirection` computed by `queueDirection` (src/game.js 249-251):
the last queued direction if any, else the current direction. -/
def lastEffective (g : SnakeGame) : Dir :=
  (g.directionQueue.getLast?).getD g.direction

/-- The candidate head `update` computes (src/game.js 403-410), before
any mutation of the snake. -/
def candidateHead (g : SnakeGame) : Cell :=
  moveCell g.snake.headI (effectiveDirection g)

/-- The queue shift at the top of `update` (src/game.js 398-400). -/
def consumeDir (g : SnakeGame) : SnakeGame :=
  match g.directionQueue with
  | [] => g
  | d :: rest => { g with direction := d, directionQueue := rest }

/-- Embeds `SnakeGame.update` (src/game.js 394-428), the per-tick step: only
effective while PLAYING; consume the queued direction, compute the
candidate head, run the collision check against the pre-move body, and
either end the round or advance the snake (growing iff food was hit). -/
def update (r : Nat) (g : SnakeGame) : SnakeGame :=
  if g.state ≠ GameState.PLAYING then g
  else
    let g1 := consumeDir g
    let head := moveCell g1.snake.headI g1.direction
    if checkCollision head g1.snake then gameOver g1
    else
      let g2 := { g1 with snake := head :: g1.snake }
      if g2.food == some head then eatFood r g2
      else { g2 with snake := g2.snake.dropLast }

/-- Embeds `SnakeGame.startGame` (src/game.js 273-293): reset all round state,
re-init the snake, spawn the first food, arm the scheduler. -/
def startGame (r : Nat) (g : SnakeGame) : SnakeGame :=
  let g1 := { g with
    state := GameState.PLAYING
    score := 0
    direction := INITIAL_DIRECTION
    nextDirection := INITIAL_DIRECTION
    directionQueue := []
    currentSpeed := (SPEED_LEVELS.headI).speed
    snake := initSnake }
  startGameLoop (spawnFoodState r g1)

/-- The numeric value of a list of decimal digit characters, most
significant first. -/
def digitsVal (cs : List Char) : Nat :=
  cs.foldl (fun acc c => 10 * acc + (c.toNat - 48)) 0

/-- Embeds the JS builtin `parseInt(s, 10)`: skip leading whitespace,
accept one optional sign, then read the longest prefix of decimal
digits; if that prefix is empty the result is `NaN`, modelled as
`none`. -/
def parseIntBase10 (s : String) : Option Int :=
  match s.data.dropWhile (fun c => c == ' ' || c == '\t' || c == '\n' || c == '\r') with
  | [] => none
  | c :: rest =>
    if c = '-' then
      match rest.takeWhile Char.isDigit with
      | [] => none
      | ds => some (-(digitsVal ds : Int))
    else if c = '+' then
      match rest.takeWhile Char.isDigit with
      | [] => none
      | ds => some ((digitsVal ds : Int))
    else
      match (c :: rest).takeWhile Char.isDigit with
      | [] => none
      | ds => some ((digitsVal ds : Int))

/-- Embeds `SnakeGame.loadHighScore` (src/game.js 690-693):
`saved ? parseInt(saved, 10) : 0`.  The store holds `none` (absent key)
or the raw string; the result `none` models the JS value `NaN`. -/
def loadHighScore (store : Option String) : Option Int :=
  match store with
  | none => some 0
  | some s => if s = "" then some 0 else parseIntBase10 s

/-- One user-visible event hitting the game logic: a scheduler tick
(with the random draw it may consume), a direction request, or a
pause / resume / restart intent. -/
inductive Event
  | tick (r : Nat)
  | request (d : Dir)
  | pauseEv
  | resumeEv
  | startEv (r : Nat)

/-- Dispatch of one event to the corresponding `SnakeGame` method. -/
def step (e : Event) (g : SnakeGame) : SnakeGame :=
  match e with
  | .tick r => update r g
  | .request d => queueDirection d g
  | .pauseEv => pauseGame g
  | .resumeEv => resumeGame g
  | .startEv r => startGame r g

/-- A whole interaction: the events are applied in order. -/
def run (evs : List Event) (g : SnakeGame) : SnakeGame :=
  evs.foldl (fun g e => step e g) g

/-- Adjacent directions in `direction :: directionQueue` are never equal
and never opposite: the well-formedness `queueDirection` maintains. -/
def queueWellFormed (g : SnakeGame) : Prop :=
  List.Chain' (fun a b => b ≠ a ∧ b ≠ Dir.opposite a) (g.direction :: g.directionQueue)

/-- A concrete mid-round state used to exercise the theorems: the snake
of a fresh round, food directly right of the head. -/
def sampleEatState : SnakeGame :=
  { state := GameState.PLAYING, score := 0, highScore := 0,
    snake := [⟨10, 10⟩, ⟨9, 10⟩, ⟨8, 10⟩, ⟨7, 10⟩],
    direction := .RIGHT, nextDirection := .RIGHT,
    food := some ⟨11, 10⟩, loopInterval := some 150, currentSpeed := 150,
    directionQueue := [], store := none }

/-- A concrete state heading RIGHT with the head already on the right
wall column. -/
def sampleWallState : SnakeGame :=
  { state := GameState.PLAYING, score := 30, highScore := 20,
    snake := [⟨19, 10⟩, ⟨18, 10⟩, ⟨17, 10⟩, ⟨16, 10⟩],
    direction := .RIGHT, nextDirection := .RIGHT,
    food := some ⟨0, 0⟩, loopInterval := some 150, currentSpeed := 150,
    directionQueue := [], store := some "20" }

end Snake

/-! The earlier, function-based variant of the game
(src/unnamed/part_000): module-level `snake` / `food` / `direction` /
`nextDirection` / `isGameRunning` globals and free functions. -/

namespace Variant

open Snake

/-- The module-level mutable globals of the function-based variant
(src/unnamed/part_000 35-40), plus `gameLoopArmed` modelling whether the
`setInterval` handle `gameLoop` is live. -/
structure VState where
  snake : List Cell
  food : Option Cell
  direction : Dir
  nextDirection : Dir
  isGameRunning : Bool
  gameLoopArmed : Bool
deriving DecidableEq, Repr

/-- The variant's `spawnFood` (src/unnamed/part_000 139-159): unlike the
class version it has no win handling — when no valid position exists the
food is simply left unchanged. -/
def spawnFoodV (r : Nat) (s : VState) : VState :=
  let valid := validPositions s.snake
  if h : valid.length = 0 then s
  else { s with
    food := some (valid.get ⟨r % valid.length, Nat.mod_lt r (Nat.pos_of_ne_zero h)⟩) }

/-- The variant's `checkFoodCollision` (src/unnamed/part_000 182-185):
`food && head.x === food.x && head.y === food.y` on the current
`snake[0]`. -/
def checkFoodCollision (s : VState) : Bool :=
  match s.food with
  | some f => s.snake.headI.x == f.x && s.snake.headI.y == f.y
  | none => false

/-- The variant's `moveSnake` (src/unnamed/part_000 84-111): apply the
queued direction, unshift the computed head unconditionally — there is
no wall or self collision check — then either keep the tail (food) or
pop it.  Returns the new state and whether food was eaten. -/
def moveSnake (r : Nat) (s : VState) : VState × Bool :=
  let s1 := { s with direction := s.nextDirection }
  let head := moveCell s1.snake.headI s1.direction
  let s2 := { s1 with snake := head :: s1.snake }
  if checkFoodCollision s2 then (spawnFoodV r s2, true)
  else ({ s2 with snake := s2.snake.dropLast }, false)

/-- The variant's `update` tick handler (src/unnamed/part_000 244-247):
`moveSnake(); draw();` — the eaten flag is discarded, nothing ever stops
the loop. -/
def update (r : Nat) (s : VState) : VState :=
  (moveSnake r s).1

/-- A concrete running variant state whose head sits on the right wall
column, heading RIGHT. -/
def sampleVariantState : VState :=
  { snake := [⟨19, 10⟩, ⟨18, 10⟩], food := some ⟨0, 0⟩,
    direction := .RIGHT, nextDirection := .RIGHT,
    isGameRunning := true, gameLoopArmed := true }

end Variant

namespace Snake

lemma onSnake_iff_mem (snake : List Cell) (c : Cell) :
    onSnake snake c = true ↔ c ∈ snake := by
  simp only [onSnake, List.any_eq_true, Bool.and_eq_true, beq_iff_eq]
  constructor
  · rintro ⟨seg, hmem, hx, hy⟩
    have : seg = c := by cases seg; cases c; simp_all
    exact this ▸ hmem
  · intro h
    exact ⟨c, h, rfl, rfl⟩

lemma wallTest_iff (head : Cell) :
    (head.x < 0 || (GRID_SIZE : Int) ≤ head.x || head.y < 0 || (GRID_SIZE : Int) ≤ head.y)
      = true ↔ ¬ inBounds head := by
  simp only [Bool.or_eq_true, decide_eq_true_eq, inBounds]
  omega

lemma checkKind_WALL_iff (head : Cell) (snake : List Cell) :
    checkKind head snake = CollisionKind.WALL ↔ ¬ inBounds head := by
  unfold checkKind
  split
  · rename_i h
    exact iff_of_true rfl ((wallTest_iff head).mp h)
  · rename_i h
    have hb : inBounds head := by
      by_contra hc
      exact h ((wallTest_iff head).mpr hc)
    split
    · exact iff_of_false (by simp) (not_not_intro hb)
    · exact iff_of_false (by simp) (not_not_intro hb)

lemma checkKind_SELF_iff (head : Cell) (snake : List Cell) (hb : inBounds head) :
    checkKind head snake = CollisionKind.SELF ↔ head ∈ snake := by
  unfold checkKind
  rw [if_neg ?_]
  · rw [← onSnake_iff_mem]
    split
    · rename_i h
      exact iff_of_true rfl h
    · rename_i h
      exact iff_of_false (by simp) (by simp_all)
  · intro hcond
    exact (wallTest_iff head).mp hcond hb

lemma checkCollision_eq_kind (head : Cell) (snake : List Cell) :
    checkCollision head snake = decide (checkKind head snake ≠ CollisionKind.NONE) := by
  unfold checkCollision checkKind
  split
  · rfl
  · split <;> rfl

section Helpers

variable (g : SnakeGame) (r : Nat)

@[simp] lemma consumeDir_snake : (consumeDir g).snake = g.snake := by
  unfold consumeDir; cases g.directionQueue <;> rfl

@[simp] lemma consumeDir_food : (consumeDir g).food = g.food := by
  unfold consumeDir; cases g.directionQueue <;> rfl

@[simp] lemma consumeDir_score : (consumeDir g).score = g.score := by
  unfold consumeDir; cases g.directionQueue <;> rfl

@[simp] lemma consumeDir_state : (consumeDir g).state = g.state := by
  unfold consumeDir; cases g.directionQueue <;> rfl

@[simp] lemma consumeDir_highScore : (consumeDir g).highScore = g.highScore := by
  unfold consumeDir; cases g.directionQueue <;> rfl

@[simp] lemma consumeDir_store : (consumeDir g).store = g.store := by
  unfold consumeDir; cases g.directionQueue <;> rfl

lemma consumeDir_direction : (consumeDir g).direction = effectiveDirection g := by
  unfold consumeDir effectiveDirection; cases g.directionQueue <;> rfl

lemma consumeDir_queue : (consumeDir g).directionQueue = g.directionQueue.tail := by
  unfold consumeDir; cases h : g.directionQueue <;> simp [h]

@[simp] lemma startGameLoop_snake : (startGameLoop g).snake = g.snake := rfl

@[simp] lemma startGameLoop_score : (startGameLoop g).score = g.score := rfl

@[simp] lemma startGameLoop_direction : (startGameLoop g).direction = g.direction := rfl

@[simp] lemma startGameLoop_queue : (startGameLoop g).directionQueue = g.directionQueue := rfl

@[simp] lemma saveHighScore_snake : (saveHighScore g).snake = g.snake := rfl

@[simp] lemma saveHighScore_score : (saveHighScore g).score = g.score := rfl

@[simp] lemma handleWin_snake : (handleWin g).snake = g.snake := by
  simp only [handleWin, saveHighScore]; split <;> rfl

@[simp] lemma handleWin_score : (handleWin g).score = g.score := by
  simp only [handleWin, saveHighScore]; split <;> rfl

@[simp] lemma handleWin_direction : (handleWin g).direction = g.direction := by
  simp only [handleWin, saveHighScore]; split <;> rfl

@[simp] lemma handleWin_queue : (handleWin g).directionQueue = g.directionQueue := by
  simp only [handleWin, saveHighScore]; split <;> rfl

@[simp] lemma gameOver_snake : (gameOver g).snake = g.snake := by
  simp only [gameOver, saveHighScore]; split <;> rfl

@[simp] lemma gameOver_score : (gameOver g).score = g.score := by
  simp only [gameOver, saveHighScore]; split <;> rfl

@[simp] lemma gameOver_direction : (gameOver g).direction = g.direction := by
  simp only [gameOver, saveHighScore]; split <;> rfl

@[simp] lemma gameOver_queue : (gameOver g).directionQueue = g.directionQueue := by
  simp only [gameOver, saveHighScore]; split <;> rfl

@[simp] lemma updateSpeed_snake : (updateSpeed g).snake = g.snake := by
  unfold updateSpeed
  cases speedFor SPEED_LEVELS g.score
  · rfl
  · dsimp only; split <;> rfl

@[simp] lemma updateSpeed_score : (updateSpeed g).score = g.score := by
  unfold updateSpeed
  cases speedFor SPEED_LEVELS g.score
  · rfl
  · dsimp only; split <;> rfl

@[simp] lemma updateSpeed_direction : (updateSpeed g).direction = g.direction := by
  unfold updateSpeed
  cases speedFor SPEED_LEVELS g.score
  · rfl
  · dsimp only; split <;> rfl

@[simp] lemma updateSpeed_queue : (updateSpeed g).directionQueue = g.directionQueue := by
  unfold updateSpeed
  cases speedFor SPEED_LEVELS g.score
  · rfl
  · dsimp only; split <;> rfl

@[simp] lemma spawnFoodState_snake : (spawnFoodState r g).snake = g.snake := by
  unfold spawnFoodState
  cases spawnFood g.snake r
  · exact handleWin_snake g
  · rfl

@[simp] lemma spawnFoodState_score : (spawnFoodState r g).score = g.score := by
  unfold spawnFoodState
  cases spawnFood g.snake r
  · exact handleWin_score g
  · rfl

@[simp] lemma spawnFoodState_direction : (spawnFoodState r g).direction = g.direction := by
  unfold spawnFoodState
  cases spawnFood g.snake r
  · exact handleWin_direction g
  · rfl

@[simp] lemma spawnFoodState_queue :
    (spawnFoodState r g).directionQueue = g.directionQueue := by
  unfold spawnFoodState
  cases spawnFood g.snake r
  · exact handleWin_queue g
  · rfl

@[simp] lemma eatFood_snake : (eatFood r g).snake = g.snake := by
  unfold eatFood; rw [spawnFoodState_snake, updateSpeed_snake]

@[simp] lemma eatFood_score : (eatFood r g).score = g.score + POINTS_PER_FOOD := by
  unfold eatFood; rw [spawnFoodState_score, updateSpeed_score]

@[simp] lemma eatFood_direction : (eatFood r g).direction = g.direction := by
  unfold eatFood; rw [spawnFoodState_direction, updateSpeed_direction]

@[simp] lemma eatFood_queue : (eatFood r g).directionQueue = g.directionQueue := by
  unfold eatFood; rw [spawnFoodState_queue, updateSpeed_queue]

lemma candidateHead_consumeDir :
    moveCell (consumeDir g).snake.headI (consumeDir g).direction = candidateHead g := by
  unfold candidateHead consumeDir effectiveDirection
  cases g.directionQueue <;> rfl

/-- Shape of one PLAYING tick, with the direction consumption factored
through `consumeDir` and `candidateHead`. -/
lemma update_playing (hp : g.state = GameState.PLAYING) :
    update r g =
      if checkCollision (candidateHead g) g.snake then gameOver (consumeDir g)
      else if g.food == some (candidateHead g) then
        eatFood r { consumeDir g with snake := candidateHead g :: g.snake }
      else { consumeDir g with snake := (candidateHead g :: g.snake).dropLast } := by
  unfold update candidateHead effectiveDirection consumeDir
  rw [if_neg (by simp [hp])]
  cases g.directionQueue <;> rfl

end Helpers

/-- The claim C1: the collision check classifies a candidate head
against the pre-move body as WALL exactly when a coordinate leaves
`[0, GRID_SIZE)`, as SELF (for in-board heads) exactly when the head
equals some cell of the full pre-move body — the soon-to-be-vacated
tail included, since the last list entry takes part in the membership —
and the boolean `checkCollision` of the source agrees with the
classifier being non-NONE; moreover the check is evaluated before any
mutation: a colliding tick leaves the snake untouched. -/
theorem checkCollision_classifies (head : Cell) (snake : List Cell) :
    (checkKind head snake = CollisionKind.WALL ↔
      (head.x < 0 ∨ (GRID_SIZE : Int) ≤ head.x ∨ head.y < 0 ∨ (GRID_SIZE : Int) ≤ head.y))
    ∧ (inBounds head → (checkKind head snake = CollisionKind.SELF ↔ head ∈ snake))
    ∧ (∀ h : snake ≠ [], inBounds head → head = snake.getLast h →
        checkKind head snake = CollisionKind.SELF)
    ∧ checkCollision head snake = decide (checkKind head snake ≠ CollisionKind.NONE)
    ∧ (∀ (r : Nat) (g : SnakeGame), g.state = GameState.PLAYING →
        checkCollision (candidateHead g) g.snake = true →
        (update r g).snake = g.snake) := by
  refine ⟨?_, ?_, ?_, checkCollision_eq_kind head snake, ?_⟩
  · rw [checkKind_WALL_iff]
    unfold inBounds
    constructor
    · intro h; omega
    · intro h; omega
  · exact checkKind_SELF_iff head snake
  · intro h hb hlast
    rw [checkKind_SELF_iff head snake hb]
    exact hlast ▸ List.getLast_mem h
  · intro r g hp hc
    rw [update_playing g r hp, if_pos hc, gameOver_snake, consumeDir_snake]

/-- Witness for C1 at a concrete input: a head on the vacated tail cell
of a length-2 snake is classified SELF. -/
theorem checkCollision_classifies_witness :
    checkKind ⟨3, 3⟩ [⟨4, 3⟩, ⟨3, 3⟩] = CollisionKind.SELF :=
  ((checkCollision_classifies ⟨3, 3⟩ [⟨4, 3⟩, ⟨3, 3⟩]).2.1 (by decide)).mpr (by decide)

/-- The claim C2: on a PLAYING tick whose candidate head does not
collide, the snake length is preserved when no food is eaten, and the
snake grows by exactly one cell, with the score growing by
`POINTS_PER_FOOD`, when the candidate head is the food cell. -/
theorem update_tick_length_score (r : Nat) (g : SnakeGame)
    (hp : g.state = GameState.PLAYING)
    (hc : checkCollision (candidateHead g) g.snake = false) :
    (g.food ≠ some (candidateHead g) →
      (update r g).snake.length = g.snake.length)
    ∧ (g.food = some (candidateHead g) →
      (update r g).snake.length = g.snake.length + 1
      ∧ (update r g).score = g.score + POINTS_PER_FOOD) := by
  rw [update_playing g r hp, if_neg (by simp [hc])]
  constructor
  · intro hne
    rw [if_neg (by simp [hne])]
    simp [List.length_dropLast]
  · intro heq
    rw [if_pos (by simp [heq])]
    constructor
    · simp
    · simp

/-- Witness for C2: the food-adjacent sample state grows from 4 to 5
cells and scores 10 points on one tick. -/
theorem update_tick_length_score_witness :
    (update 0 sampleEatState).snake.length = sampleEatState.snake.length + 1
    ∧ (update 0 sampleEatState).score = sampleEatState.score + POINTS_PER_FOOD :=
  (update_tick_length_score 0 sampleEatState (by decide) (by decide)).2 (by decide)

lemma Dir.opposite_opposite (d : Dir) : d.opposite.opposite = d := by
  cases d <;> rfl

lemma Dir.opposite_ne (d : Dir) : d.opposite ≠ d := by
  cases d <;> simp [Dir.opposite]

lemma getLast?_cons_getD {α : Type _} (a : α) (l : List α) :
    (a :: l).getLast? = some ((l.getLast?).getD a) := by
  induction l generalizing a with
  | nil => rfl
  | cons b t ih => rw [List.getLast?_cons_cons, ih b]; rfl

lemma queueDirection_noop (g : SnakeGame) (d : Dir)
    (h : d = lastEffective g ∨ d = Dir.opposite (lastEffective g)) :
    queueDirection d g = g := by
  unfold lastEffective at h
  simp only [queueDirection]
  split
  · rfl
  · rcases h with rfl | rfl
    · rw [if_neg (Dir.opposite_ne _), if_pos rfl]
    · rw [if_pos (Dir.opposite_opposite _)]

lemma queueDirection_snake (g : SnakeGame) (d : Dir) :
    (queueDirection d g).snake = g.snake := by
  simp only [queueDirection]
  split
  · rfl
  · split
    · rfl
    · split
      · rfl
      · split <;> rfl

lemma pauseGame_snake (g : SnakeGame) : (pauseGame g).snake = g.snake := by
  unfold pauseGame; split <;> rfl

lemma resumeGame_snake (g : SnakeGame) : (resumeGame g).snake = g.snake := by
  unfold resumeGame startGameLoop; split <;> rfl

lemma startGame_snake (r : Nat) (g : SnakeGame) : (startGame r g).snake = initSnake := by
  unfold startGame
  rw [startGameLoop_snake, spawnFoodState_snake]

lemma startGame_direction (r : Nat) (g : SnakeGame) :
    (startGame r g).direction = INITIAL_DIRECTION := by
  unfold startGame
  rw [startGameLoop_direction, spawnFoodState_direction]

lemma startGame_queue (r : Nat) (g : SnakeGame) :
    (startGame r g).directionQueue = [] := by
  unfold startGame
  rw [startGameLoop_queue, spawnFoodState_queue]

lemma pauseGame_direction (g : SnakeGame) : (pauseGame g).direction = g.direction := by
  unfold pauseGame; split <;> rfl

lemma pauseGame_queue (g : SnakeGame) :
    (pauseGame g).directionQueue = g.directionQueue := by
  unfold pauseGame; split <;> rfl

lemma resumeGame_direction (g : SnakeGame) : (resumeGame g).direction = g.direction := by
  unfold resumeGame startGameLoop; split <;> rfl

lemma resumeGame_queue (g : SnakeGame) :
    (resumeGame g).directionQueue = g.directionQueue := by
  unfold resumeGame startGameLoop; split <;> rfl

lemma queueWellFormed_consumeDir (g : SnakeGame) (hw : queueWellFormed g) :
    queueWellFormed (consumeDir g) := by
  unfold queueWellFormed consumeDir at *
  cases h : g.directionQueue with
  | nil => simpa using hw
  | cons d rest =>
    rw [h] at hw
    exact (List.chain'_cons.mp hw).2

lemma queueWellFormed_queueDirection (g : SnakeGame) (d : Dir)
    (hw : queueWellFormed g) : queueWellFormed (queueDirection d g) := by
  simp only [queueDirection]
  split
  · exact hw
  · split
    · exact hw
    · split
      · exact hw
      · split
        · rename_i hopp heq hlen
          unfold queueWellFormed at *
          show List.Chain' _ ((g.direction :: g.directionQueue) ++ [d])
          refine hw.append (List.chain'_singleton d) ?_
          intro x hx y hy
          rw [getLast?_cons_getD, Option.mem_def, Option.some_inj] at hx
          simp only [List.head?_cons, Option.mem_def, Option.some_inj] at hy
          subst hx; subst hy
          refine ⟨fun hcon => heq hcon, fun hcon => hopp ?_⟩
          rw [hcon, Dir.opposite_opposite]
        · exact hw

lemma update_not_playing (r : Nat) (g : SnakeGame)
    (hp : g.state ≠ GameState.PLAYING) : update r g = g := by
  unfold update; rw [if_pos hp]

lemma queueWellFormed_update (r : Nat) (g : SnakeGame) (hw : queueWellFormed g) :
    queueWellFormed (update r g) := by
  by_cases hp : g.state = GameState.PLAYING
  · rw [update_playing g r hp]
    have hw1 : queueWellFormed (consumeDir g) := queueWellFormed_consumeDir g hw
    split
    · unfold queueWellFormed at *
      rw [gameOver_direction, gameOver_queue]
      exact hw1
    · split
      · unfold queueWellFormed at *
        rw [eatFood_direction, eatFood_queue]
        exact hw1
      · exact hw1
  · rw [update_not_playing r g hp]
    exact hw

lemma queueWellFormed_startGame (r : Nat) (g : SnakeGame) :
    queueWellFormed (startGame r g) := by
  unfold queueWellFormed
  rw [startGame_direction, startGame_queue]
  exact List.chain'_singleton _

lemma queueWellFormed_step (e : Event) (g : SnakeGame) (hw : queueWellFormed g) :
    queueWellFormed (step e g) := by
  cases e with
  | tick r => exact queueWellFormed_update r g hw
  | request d => exact queueWellFormed_queueDirection g d hw
  | pauseEv =>
    unfold queueWellFormed at *
    simp only [step]
    rw [pauseGame_direction, pauseGame_queue]
    exact hw
  | resumeEv =>
    unfold queueWellFormed at *
    simp only [step]
    rw [resumeGame_direction, resumeGame_queue]
    exact hw
  | startEv r => exact queueWellFormed_startGame r g

lemma queueWellFormed_run (evs : List Event) (g : SnakeGame) (hw : queueWellFormed g) :
    queueWellFormed (run evs g) := by
  induction evs generalizing g with
  | nil => exact hw
  | cons e t ih => exact ih (step e g) (queueWellFormed_step e g hw)

lemma effectiveDirection_ne_opposite (g : SnakeGame) (hw : queueWellFormed g) :
    effectiveDirection g ≠ Dir.opposite g.direction := by
  unfold queueWellFormed at hw
  unfold effectiveDirection
  cases h : g.directionQueue with
  | nil => exact fun hcon => Dir.opposite_ne g.direction hcon.symm
  | cons d rest =>
    rw [h] at hw
    exact (List.chain'_cons.mp hw).1.2

/-- The claim C3: a direction request equal or opposite to the direction
that would currently be effective (the current direction, or the last
already-queued one) is a no-op, round starts establish the queue
well-formedness, and along any event sequence from a well-formed state
the direction the next tick will consume is never the 180-degree
opposite of the direction consumed before it. -/
theorem direction_requests_no_reversal :
    (∀ (g : SnakeGame) (d : Dir),
        d = lastEffective g ∨ d = Dir.opposite (lastEffective g) →
        queueDirection d g = g)
    ∧ (∀ (r : Nat) (g : SnakeGame), queueWellFormed (startGame r g))
    ∧ (∀ (evs : List Event) (g0 : SnakeGame), queueWellFormed g0 →
        queueWellFormed (run evs g0)
        ∧ effectiveDirection (run evs g0) ≠ Dir.opposite (run evs g0).direction) := by
  refine ⟨queueDirection_noop, queueWellFormed_startGame, fun evs g0 hw => ?_⟩
  have hrun := queueWellFormed_run evs g0 hw
  exact ⟨hrun, effectiveDirection_ne_opposite _ hrun⟩

/-- Witness for C3: requesting LEFT while heading RIGHT with an empty
queue is a no-op. -/
theorem direction_requests_no_reversal_witness :
    queueDirection Dir.LEFT sampleEatState = sampleEatState :=
  direction_requests_no_reversal.1 sampleEatState Dir.LEFT (Or.inr (by decide))

lemma checkCollision_false_not_mem (head : Cell) (snake : List Cell)
    (hc : checkCollision head snake = false) : head ∉ snake := by
  intro hmem
  rw [← onSnake_iff_mem] at hmem
  unfold checkCollision at hc
  rw [hmem] at hc
  simp at hc

lemma nodup_update (r : Nat) (g : SnakeGame) (hn : g.snake.Nodup) :
    (update r g).snake.Nodup := by
  by_cases hp : g.state = GameState.PLAYING
  · rw [update_playing g r hp]
    split
    · rw [gameOver_snake, consumeDir_snake]; exact hn
    · rename_i hc
      have hnotmem : candidateHead g ∉ g.snake :=
        checkCollision_false_not_mem _ _ (by simpa using hc)
      have hcons : (candidateHead g :: g.snake).Nodup := List.nodup_cons.mpr ⟨hnotmem, hn⟩
      split
      · rw [eatFood_snake]; exact hcons
      · exact List.Nodup.sublist (List.dropLast_sublist _) hcons
  · rw [update_not_playing r g hp]; exact hn

lemma nodup_step (e : Event) (g : SnakeGame) (hn : g.snake.Nodup) :
    (step e g).snake.Nodup := by
  cases e with
  | tick r => exact nodup_update r g hn
  | request d => simp only [step]; rw [queueDirection_snake]; exact hn
  | pauseEv => simp only [step]; rw [pauseGame_snake]; exact hn
  | resumeEv => simp only [step]; rw [resumeGame_snake]; exact hn
  | startEv r => simp only [step]; rw [startGame_snake]; decide

lemma nodup_run (evs : List Event) (g : SnakeGame) (hn : g.snake.Nodup) :
    (run evs g).snake.Nodup := by
  induction evs generalizing g with
  | nil => exact hn
  | cons e t ih => exact ih (step e g) (nodup_step e g hn)

/-- The claim C4: in every state reachable from a round start by any
sequence of ticks, direction requests, pause / resume intents and
restarts, the snake has no duplicate cells. -/
theorem snake_nodup_reachable (evs : List Event) (r : Nat) (g : SnakeGame) :
    (run evs (startGame r g)).snake.Nodup :=
  nodup_run evs (startGame r g) (by rw [startGame_snake]; decide)

lemma length_filter_add (l : List Cell) (p : Cell → Bool) :
    (l.filter p).length + (l.filter (fun c => ! p c)).length = l.length := by
  induction l with
  | nil => rfl
  | cons a t ih =>
    by_cases h : p a <;> simp only [List.filter_cons, h] <;> simp <;> omega

lemma gridCells_length : gridCells.length = GRID_SIZE * GRID_SIZE := by decide

lemma mem_gridCells (c : Cell) : c ∈ gridCells ↔ inBounds c := by
  obtain ⟨cx, cy⟩ := c
  unfold gridCells inBounds
  dsimp only
  rw [List.mem_flatMap]
  constructor
  · rintro ⟨x, hx, hmem⟩
    rw [List.mem_map] at hmem
    obtain ⟨y, hy, heq⟩ := hmem
    rw [List.mem_range] at hx hy
    injection heq with h1 h2
    subst h1; subst h2
    refine ⟨by omega, by omega, by omega, by omega⟩
  · rintro ⟨h1, h2, h3, h4⟩
    refine ⟨cx.toNat, List.mem_range.mpr (by omega), List.mem_map.mpr ?_⟩
    refine ⟨cy.toNat, List.mem_range.mpr (by omega), ?_⟩
    show Cell.mk _ _ = Cell.mk cx cy
    rw [Int.toNat_of_nonneg h1, Int.toNat_of_nonneg h3]

lemma mem_validPositions (snake : List Cell) (c : Cell) :
    c ∈ validPositions snake ↔ c ∈ gridCells ∧ onSnake snake c = false := by
  unfold validPositions
  rw [List.mem_filter]
  simp

lemma valid_add_occupied (snake : List Cell) :
    occupiedCount snake + (validPositions snake).length = gridCells.length := by
  unfold validPositions occupiedCount
  exact length_filter_add gridCells (fun c => onSnake snake c)

lemma spawnFood_eq_none_iff (snake : List Cell) (r : Nat) :
    spawnFood snake r = none ↔ (validPositions snake).length = 0 := by
  simp only [spawnFood]
  split
  · rename_i h; simp [h]
  · rename_i h; simp [h]

lemma spawnFood_some_mem (snake : List Cell) (r : Nat) (c : Cell)
    (h : spawnFood snake r = some c) : c ∈ validPositions snake := by
  simp only [spawnFood] at h
  split at h
  · exact absurd h (by simp)
  · rw [Option.some_inj] at h
    exact h ▸ (validPositions snake).get_mem _ _

lemma handleWin_state (g : SnakeGame) : (handleWin g).state = GameState.GAME_OVER := by
  simp only [handleWin, saveHighScore]; split <;> rfl

/-- The claim C5: for every snake body and every outcome of the random
draw, a spawned food cell is never on the snake and always inside
`[0, GRID_SIZE)` in both coordinates, and the BoardFull signal (which
routes to `handleWin`, putting the game into its terminal phase) is
raised exactly when the snake-occupied cell count equals the grid
area. -/
theorem spawnFood_correct (snake : List Cell) (r : Nat) :
    (∀ c, spawnFood snake r = some c → c ∉ snake ∧ inBounds c)
    ∧ (spawnFood snake r = none ↔ occupiedCount snake = GRID_SIZE * GRID_SIZE)
    ∧ (∀ g : SnakeGame, spawnFood g.snake r = none →
        (spawnFoodState r g).state = GameState.GAME_OVER) := by
  refine ⟨?_, ?_, ?_⟩
  · intro c hc
    have hv := spawnFood_some_mem snake r c hc
    rw [mem_validPositions] at hv
    constructor
    · intro hmem
      rw [← onSnake_iff_mem] at hmem
      rw [hv.2] at hmem
      exact Bool.false_ne_true hmem
    · exact (mem_gridCells c).mp hv.1
  · rw [spawnFood_eq_none_iff]
    have hsum := valid_add_occupied snake
    rw [gridCells_length] at hsum
    omega
  · intro g hnone
    unfold spawnFoodState
    rw [hnone]
    exact handleWin_state g

/-- Witness for C5: with only the origin occupied, draw 5 spawns the
cell `(0, 6)`, which is off the snake and in bounds. -/
theorem spawnFood_correct_witness :
    (⟨0, 6⟩ : Cell) ∉ ([⟨0, 0⟩] : List Cell) ∧ inBounds ⟨0, 6⟩ :=
  (spawnFood_correct [⟨0, 0⟩] 5).1 ⟨0, 6⟩ (by decide)

lemma lastEntry_aux (score : Nat) (levels : List SpeedLevel) (acc : Option SpeedLevel) :
    levels.foldl (fun acc level => if level.threshold ≤ score then some level else acc) acc
      = ((levels.filter (fun level => decide (level.threshold ≤ score))).getLast?).or acc := by
  induction levels generalizing acc with
  | nil => rfl
  | cons a t ih =>
    rw [List.foldl_cons, List.filter_cons]
    by_cases h : a.threshold ≤ score
    · rw [if_pos h, if_pos (by simpa using h), ih (some a), getLast?_cons_getD]
      cases ho : (t.filter (fun level => decide (level.threshold ≤ score))).getLast? with
      | none => rfl
      | some b => rfl
    · rw [if_neg h, if_neg (by simpa using h)]
      exact ih acc

lemma speedFor_eq_lastEntrySpec (levels : List SpeedLevel) (score : Nat) :
    speedFor levels score = (lastEntrySpec levels score).map SpeedLevel.speed := by
  unfold speedFor lastEntrySpec
  rw [lastEntry_aux score levels none, Option.or_none]

/-- The configured table as a closed-form step function of the score. -/
def speedTable (s : Nat) : Nat :=
  if 500 ≤ s then 60 else if 300 ≤ s then 75 else if 200 ≤ s then 90
  else if 100 ≤ s then 110 else if 50 ≤ s then 130 else 150

lemma speedFor_SPEED_LEVELS (s : Nat) : speedFor SPEED_LEVELS s = some (speedTable s) := by
  unfold speedFor SPEED_LEVELS speedTable
  by_cases h5 : 500 ≤ s <;> by_cases h4 : 300 ≤ s <;> by_cases h3 : 200 ≤ s <;>
    by_cases h2 : 100 ≤ s <;> by_cases h1 : 50 ≤ s <;>
    first
      | (exfalso; omega)
      | simp [List.filter, h1, h2, h3, h4, h5, Nat.zero_le]

/-- The claim C6: for every table, `speedFor` returns the speed of the
last entry whose threshold is at or below the score, and on the
configured ascending `SPEED_LEVELS` table it is a monotone
non-increasing step function of the score. -/
theorem speedFor_last_entry_monotone (s1 s2 : Nat) (hlt : s1 < s2) :
    (∀ (levels : List SpeedLevel) (s : Nat),
        speedFor levels s = (lastEntrySpec levels s).map SpeedLevel.speed)
    ∧ ∀ v1 v2 : Nat, speedFor SPEED_LEVELS s1 = some v1 →
        speedFor SPEED_LEVELS s2 = some v2 → v2 ≤ v1 := by
  refine ⟨speedFor_eq_lastEntrySpec, fun v1 v2 h1 h2 => ?_⟩
  rw [speedFor_SPEED_LEVELS, Option.some_inj] at h1 h2
  subst h1; subst h2
  unfold speedTable
  split_ifs <;> omega

/-- Witness for C6: score 60 is one speed level above score 40 and the
configured interval drops from 150 to 130. -/
theorem speedFor_last_entry_monotone_witness :
    speedFor SPEED_LEVELS 60 = some 130 ∧ (130 : Nat) ≤ 150 :=
  ⟨by decide, (speedFor_last_entry_monotone 40 60 (by decide)).2 150 130 (by decide) (by decide)⟩

/-- The claim C7: `pauseGame` acts only from PLAYING and `resumeGame`
only from PAUSED, both being no-ops in every other phase; when they act
they disarm respectively re-arm the tick scheduler (resuming at the
still-current interval) while leaving snake, food, score, direction and
the direction queue untouched. -/
theorem pause_resume_only_act (g : SnakeGame) :
    (g.state ≠ GameState.PLAYING → pauseGame g = g)
    ∧ (g.state ≠ GameState.PAUSED → resumeGame g = g)
    ∧ (g.state = GameState.PLAYING →
        (pauseGame g).state = GameState.PAUSED
        ∧ (pauseGame g).loopInterval = none
        ∧ (pauseGame g).snake = g.snake ∧ (pauseGame g).food = g.food
        ∧ (pauseGame g).score = g.score
        ∧ (pauseGame g).direction = g.direction
        ∧ (pauseGame g).directionQueue = g.directionQueue
        ∧ (pauseGame g).currentSpeed = g.currentSpeed)
    ∧ (g.state = GameState.PAUSED →
        (resumeGame g).state = GameState.PLAYING
        ∧ (resumeGame g).loopInterval = some g.currentSpeed
        ∧ (resumeGame g).snake = g.snake ∧ (resumeGame g).food = g.food
        ∧ (resumeGame g).score = g.score
        ∧ (resumeGame g).direction = g.direction
        ∧ (resumeGame g).directionQueue = g.directionQueue
        ∧ (resumeGame g).currentSpeed = g.currentSpeed) := by
  refine ⟨?_, ?_, ?_, ?_⟩
  · intro h; unfold pauseGame; rw [if_pos h]
  · intro h; unfold resumeGame; rw [if_pos h]
  · intro h
    unfold pauseGame
    rw [if_neg (by simp [h])]
    exact ⟨rfl, rfl, rfl, rfl, rfl, rfl, rfl, rfl⟩
  · intro h
    unfold resumeGame startGameLoop
    rw [if_neg (by simp [h])]
    exact ⟨rfl, rfl, rfl, rfl, rfl, rfl, rfl, rfl⟩

/-- Witness for C7: pausing the PLAYING sample state disarms the
scheduler, parks the phase at PAUSED, and keeps the snake. -/
theorem pause_resume_only_act_witness :
    (pauseGame sampleEatState).state = GameState.PAUSED
    ∧ (pauseGame sampleEatState).loopInterval = none
    ∧ (pauseGame sampleEatState).snake = sampleEatState.snake :=
  ⟨((pause_resume_only_act sampleEatState).2.2.1 rfl).1,
   ((pause_resume_only_act sampleEatState).2.2.1 rfl).2.1,
   ((pause_resume_only_act sampleEatState).2.2.1 rfl).2.2.1⟩

lemma gameOver_state (g : SnakeGame) : (gameOver g).state = GameState.GAME_OVER := by
  simp only [gameOver, saveHighScore]; split <;> rfl

lemma gameOver_loopInterval (g : SnakeGame) : (gameOver g).loopInterval = none := by
  simp only [gameOver, saveHighScore]; split <;> rfl

/-- The claim C8: when a round ends — `gameOver` after a collision, or
`handleWin` on BoardFull — the high score is raised to the final score
and written to the store exactly when the final score strictly exceeds
the previous high score, and is left alone (store included) otherwise;
a colliding PLAYING tick indeed routes through `gameOver`, ending the
round with the scheduler disarmed. -/
theorem highScore_persist_iff (g : SnakeGame) (r : Nat) :
    ((g.highScore < g.score →
        (gameOver g).highScore = g.score
        ∧ (gameOver g).store = some (Nat.repr g.score))
      ∧ (¬ g.highScore < g.score →
        (gameOver g).highScore = g.highScore ∧ (gameOver g).store = g.store))
    ∧ ((g.highScore < g.score →
        (handleWin g).highScore = g.score
        ∧ (handleWin g).store = some (Nat.repr g.score))
      ∧ (¬ g.highScore < g.score →
        (handleWin g).highScore = g.highScore ∧ (handleWin g).store = g.store))
    ∧ (g.state = GameState.PLAYING →
        checkCollision (candidateHead g) g.snake = true →
        update r g = gameOver (consumeDir g)
        ∧ (update r g).state = GameState.GAME_OVER
        ∧ (update r g).loopInterval = none
        ∧ (update r g).score = g.score) := by
  refine ⟨⟨?_, ?_⟩, ⟨?_, ?_⟩, ?_⟩
  · intro h
    simp only [gameOver, saveHighScore]
    rw [if_pos h]
    exact ⟨rfl, rfl⟩
  · intro h
    simp only [gameOver, saveHighScore]
    rw [if_neg h]
    exact ⟨rfl, rfl⟩
  · intro h
    simp only [handleWin, saveHighScore]
    rw [if_pos h]
    exact ⟨rfl, rfl⟩
  · intro h
    simp only [handleWin, saveHighScore]
    rw [if_neg h]
    exact ⟨rfl, rfl⟩
  · intro hp hc
    have he : update r g = gameOver (consumeDir g) := by
      rw [update_playing g r hp, if_pos hc]
    refine ⟨he, ?_, ?_, ?_⟩
    · rw [he, gameOver_state]
    · rw [he, gameOver_loopInterval]
    · rw [he, gameOver_score, consumeDir_score]

/-- Witness for C8: ticking the wall-bound sample state (score 30, old
high score 20) ends the round and persists the new high score. -/
theorem highScore_persist_iff_witness :
    (gameOver sampleWallState).highScore = sampleWallState.score
    ∧ (gameOver sampleWallState).store = some (Nat.repr sampleWallState.score) :=
  (highScore_persist_iff sampleWallState 0).1.1 (by decide)

lemma data_nil_eq_empty (s : String) (h : s.data = []) : s = "" := by
  cases s with
  | mk l =>
    simp only [String.data] at h
    subst h
    rfl

lemma digit_not_ws (c : Char) (h : c.isDigit = true) :
    (c == ' ' || c == '\t' || c == '\n' || c == '\r') = false := by
  by_contra hcon
  rw [Bool.not_eq_false] at hcon
  simp only [Bool.or_eq_true, beq_iff_eq] at hcon
  rcases hcon with ((rfl | rfl) | rfl) | rfl <;> exact absurd h (by decide)

lemma parseIntBase10_all_digits (s : String) (c : Char) (rest : List Char)
    (hs : s.data = c :: rest) (hall : ∀ a ∈ c :: rest, a.isDigit = true) :
    parseIntBase10 s = some ((digitsVal (c :: rest) : Int)) := by
  have hc : c.isDigit = true := hall c (List.mem_cons_self c rest)
  have hm : c ≠ '-' := fun h => by rw [h] at hc; exact absurd hc (by decide)
  have hp : c ≠ '+' := fun h => by rw [h] at hc; exact absurd hc (by decide)
  unfold parseIntBase10
  rw [hs, List.dropWhile_cons, if_neg (by simp [digit_not_ws c hc])]
  dsimp only
  rw [if_neg hm, if_neg hp, List.takeWhile_eq_self_iff.mpr hall]

/-- Counterexample to C9: the store content `"x"` is non-empty and
unparseable, so `parseInt` yields NaN (`none`), not the integer 0 the
claim requires; the content `"-5"` loads as the negative integer -5. -/
theorem loadHighScore_counterexample :
    loadHighScore (some "x") = none
    ∧ loadHighScore (some "-5") = some (-5)
    ∧ ((-5 : Int) < 0) := by
  refine ⟨by decide, by decide, by decide⟩

/-- The claim C9 as amended: loading yields 0 exactly in the two falsy
cases (absent key, empty string); a non-empty stored string made of
decimal digits — the shape `save_high_score` writes — loads as its
non-negative numeric value; other contents may load as NaN (modelled
`none`) or as a negative integer, as the counterexample shows. -/
theorem loadHighScore_amended :
    loadHighScore none = some 0
    ∧ loadHighScore (some "") = some 0
    ∧ (∀ s : String, s ≠ "" → (∀ a ∈ s.data, a.isDigit = true) →
        loadHighScore (some s) = some ((digitsVal s.data : Int))
        ∧ 0 ≤ ((digitsVal s.data : Int))) := by
  refine ⟨rfl, rfl, ?_⟩
  intro s hne hdig
  refine ⟨?_, Int.natCast_nonneg _⟩
  unfold loadHighScore
  dsimp only
  rw [if_neg hne]
  cases hd : s.data with
  | nil => exact absurd (data_nil_eq_empty s hd) hne
  | cons c rest =>
    rw [parseIntBase10_all_digits s c rest hd (hd ▸ hdig)]

/-- Witness for C9 (amended): the canonical content `"30"` loads as the
non-negative integer 30. -/
theorem loadHighScore_amended_witness :
    loadHighScore (some "30") = some ((digitsVal "30".data : Int))
    ∧ 0 ≤ ((digitsVal "30".data : Int)) :=
  loadHighScore_amended.2.2 "30" (by decide) (by decide)

lemma spawnFoodV_snake (r : Nat) (s : Variant.VState) :
    (Variant.spawnFoodV r s).snake = s.snake := by
  simp only [Variant.spawnFoodV]; split <;> rfl

lemma spawnFoodV_running (r : Nat) (s : Variant.VState) :
    (Variant.spawnFoodV r s).isGameRunning = s.isGameRunning := by
  simp only [Variant.spawnFoodV]; split <;> rfl

lemma spawnFoodV_armed (r : Nat) (s : Variant.VState) :
    (Variant.spawnFoodV r s).gameLoopArmed = s.gameLoopArmed := by
  simp only [Variant.spawnFoodV]; split <;> rfl

/-- The claim C10: the function-based variant never detects a collision
or ends the round — on every tick taken while the game is running the
computed head is inserted at the front of the snake even when it lies
outside the board or coincides with a body cell, and the tick handler
neither clears `isGameRunning` nor stops the game loop. -/
theorem variant_update_never_ends (r : Nat) (s : Variant.VState)
    (hrun : s.isGameRunning = true) (hne : s.snake ≠ []) :
    (∃ rest, (Variant.update r s).snake
        = moveCell s.snake.headI s.nextDirection :: rest)
    ∧ (Variant.update r s).isGameRunning = true
    ∧ (Variant.update r s).gameLoopArmed = s.gameLoopArmed := by
  simp only [Variant.update, Variant.moveSnake]
  split
  · refine ⟨⟨s.snake, by rw [spawnFoodV_snake]⟩,
      by rw [spawnFoodV_running]; exact hrun, by rw [spawnFoodV_armed]⟩
  · rcases hs : s.snake with _ | ⟨c, tail⟩
    · exact absurd hs hne
    · refine ⟨⟨(c :: tail).dropLast, ?_⟩, hrun, rfl⟩
      show (moveCell (c :: tail).headI s.nextDirection :: c :: tail).dropLast
          = moveCell (c :: tail).headI s.nextDirection :: (c :: tail).dropLast
      simp

/-- Witness for C10: the variant state whose head sits on the right
wall, heading RIGHT, keeps running and gains the out-of-board head
`(20, 10)`. -/
theorem variant_update_never_ends_witness :
    (∃ rest, (Variant.update 0 Variant.sampleVariantState).snake
        = moveCell Variant.sampleVariantState.snake.headI
            Variant.sampleVariantState.nextDirection :: rest)
    ∧ (Variant.update 0 Variant.sampleVariantState).isGameRunning = true
    ∧ (Variant.update 0 Variant.sampleVariantState).gameLoopArmed
        = Variant.sampleVariantState.gameLoopArmed :=
  variant_update_never_ends 0 Variant.sampleVariantState (by decide) (by decide)

end Snake
